import Mathlib

/-!
Shallow embedding of the worker-side job dispatcher of tesseract.js
(src/worker-script/index.js in the repository; the single unnamed source
file of the worker).  Handlers are modelled as pure functions from a
worker state and a packet to a trace of observable events: emissions on
the response emitter (progress / resolve / reject) and calls into the
adapter and the engine capability.  Outcomes of external calls (cache
reads, network fetches, engine primitives) are supplied by an oracle so
that every control path of the source is represented.
-/

namespace TessWorker

/-- Byte buffers are modelled as lists of naturals. -/
abbrev Bytes := List Nat

/-- A JavaScript exception: whether it is a DOMException (the class tested
at line 143 of the worker script) and its stringified representation. -/
structure Err where
  isDOMException : Bool
  msg : String
deriving DecidableEq, Repr

/-- Model of the JS expression err.toString(): the stringified
representation carried into reject emissions. -/
def errStr (e : Err) : String := e.msg

/-- A language spec as accepted by loadLanguage: either a plain code
string or an object carrying the code and inline data bytes. -/
inductive LangSpec
  | code (c : String)
  | inlineData (c : String) (data : Bytes)
deriving DecidableEq, Repr

/-- The code of a spec: the string itself, or the code field (line 77). -/
def LangSpec.langCode : LangSpec → String
  | .code c => c
  | .inlineData c _ => c

/-- The langs argument of loadLanguage and initialize: a combined string
or an array of specs. -/
inductive LangsArg
  | str (s : String)
  | arr (l : List LangSpec)
deriving DecidableEq, Repr

/-- Parameter sets are association lists from parameter name to value,
modelling plain JS objects. -/
abbrev Params := List (String × String)

/-- Modelled from the spec: the fixed default parameter set required from
constants/defaultParams, a file of this repository that is not under src.
The spec only states that parameters start at a fixed default set and that
keys with the reserved wrapper-only namespace are wrapper options, so a
representative concrete set with both kinds of key is used; no claim
depends on the particular entries. -/
def defaultParams : Params :=
  [("tessedit_ocr_engine_mode", "2"),
   ("tessedit_pageseg_mode", "3"),
   ("tessjs_create_hocr", "1"),
   ("tessjs_create_tsv", "1")]

/-- Result of a detect call (lines 322 to 328). -/
structure DetectResult where
  tesseract_script_id : Int
  script : String
  script_confidence : Int
  orientation_degrees : Nat
  orientation_confidence : Int
deriving DecidableEq, Repr

/-- The data carried by a resolve emission, one shape per handler. -/
inductive RData
  | loaded
  | fsResult
  | langsVal (l : LangsArg)
  | unit
  | paramsVal (ps : Params)
  | recognizeResult
  | pngVal (s : String)
  | pdfBytes (b : Bytes)
  | detectVal (d : DetectResult)
  | terminated
deriving DecidableEq, Repr

/-- A call on the response emitter built by dispatchHandlers. -/
inductive Emission
  | progress (status : String) (p : ℚ)
  | resolve (d : RData)
  | reject (msg : String)
deriving DecidableEq, Repr

/-- A terminal emission is a resolve or a reject; progress is not. -/
def Emission.isTerminal : Emission → Bool
  | .progress _ _ => false
  | _ => true

/-- Observable events of a handler run: response emissions plus the calls
into the adapter and the engine capability. cacheRead models every
invocation of adapter.readCache, whichever path is passed (it is used
both as the cache lookup at line 84 and as the local file read at
line 105). -/
inductive Event
  | emit (e : Emission)
  | getCore
  | cacheRead (path : String)
  | netFetch (url : String)
  | gunzipCall (input : Bytes)
  | fsMkdir (dir : String)
  | fsWriteFile (path : String) (data : Bytes)
  | cacheWrite (path : String) (data : Bytes)
  | fsCall (method : String)
  | apiEnd
  | apiNew
  | apiInit (langs : String) (oem : Int)
  | setVariable (k : String) (v : String)
  | setImageCall
  | detectOSCall
  | freeCall
  | pdfRender
deriving DecidableEq, Repr

/-- The emissions of a trace, in order. -/
def emissionsOf (tr : List Event) : List Emission :=
  tr.filterMap (fun e => match e with | .emit m => some m | _ => none)

/-- The well-formed emission pattern of one packet: zero or more
non-terminal (progress) emissions followed by exactly one terminal
resolve or reject. -/
def goodPattern (ms : List Emission) : Bool :=
  match ms.getLast? with
  | none => false
  | some t => t.isTerminal && ms.dropLast.all (fun m => !m.isTerminal)

/-- Worker state: whether the engine module handle exists, whether an API
instance exists, and the retained parameter set. -/
structure WState where
  tessModule : Bool
  api : Bool
  params : Params
deriving DecidableEq, Repr

/-- Oracle for the outcomes of external calls: adapter methods and engine
primitives. An error value models the call throwing (or its promise
rejecting); cacheReadRes returning none models resolving to undefined. -/
structure Oracle where
  getCoreRes : Except Err Unit
  coreBuildRes : Except Err Unit
  cacheReadRes : String → Except Err (Option Bytes)
  fetchRes : String → Except Err Bytes
  gunzipRes : Bytes → Bytes
  mkdirRes : String → Except Err Unit
  writeCacheRes : String → Bytes → Except Err Unit
  fsCallRes : String → Except Err Unit
  endRes : Except Err Unit
  initRes : Except Err Unit
  setVarRes : String → String → Except Err Unit
  setImageRes : Except Err Unit
  detectOSRes : Bool
  scriptId : Int
  scriptName : String
  sconfidence : Int
  orientationId : Fin 4
  oconfidence : Int
  recognizeRes : Except Err Unit
  thresholdRes : Except Err Unit
  pdfRes : Except Err Bytes
  pngB64 : String
  isWebWorker : Bool

/-- Options of a loadLanguage packet (lines 66 to 72); none models an
undefined field, and the source defaults gzip to true. -/
structure LangOptions where
  langPath : String
  dataPath : Option String
  cachePath : Option String
  cacheMethod : Option String
  gzip : Bool
deriving DecidableEq, Repr

/-- Structural test that the character list pat occurs inside s. -/
def containsSeq (pat : List Char) : List Char → Bool
  | [] => pat.isEmpty
  | c :: rest => List.isPrefixOf pat (c :: rest) || containsSeq pat rest

/-- Model of the is-url package test applied to langPath at line 97: a
string containing a scheme separator is treated as a URL. Exact on every
path shape exercised by the worker. -/
def jsIsURL (s : String) : Bool := containsSeq "://".toList s.toList

/-- Structural string test used for the reserved wrapper-only namespace
and the extension scheme tests. -/
def strStarts (pre s : String) : Bool := List.isPrefixOf pre.toList s.toList

/-- The condition of line 97: langPath is a URL or one of the known
extension-relative schemes. -/
def urlishLangPath (langPath : String) : Bool :=
  jsIsURL langPath || strStarts "moz-extension://" langPath ||
    strStarts "chrome-extension://" langPath || strStarts "file://" langPath

/-- Model of the JS expression p or dot: an undefined path defaults to
the current directory (lines 84, 127, 131). -/
def orDot : Option String → String
  | some p => p
  | none => "."

/-- The gz extension appended when the gzip option is set (lines 102,
105). -/
def gzSuffix (gzip : Bool) : String := if gzip then ".gz" else ""

/-- The cache file path of a language (lines 84 and 131). -/
def cacheFilePath (opts : LangOptions) (lang : String) : String :=
  orDot opts.cachePath ++ "/" ++ lang ++ ".traineddata"

/-- The langPath-based file name fetched or read in the fallback step
(lines 102 and 105). -/
def pathFileName (opts : LangOptions) (lang : String) : String :=
  opts.langPath ++ "/" ++ lang ++ ".traineddata" ++ gzSuffix opts.gzip

/-- Content sniffing performed by the file-type package at line 114: gzip
is recognized by the magic bytes 1F 8B 08 at the start of the buffer,
independent of file name and source. -/
def isGzipBytes : Bytes → Bool
  | b0 :: b1 :: b2 :: _ => b0 == 0x1F && b1 == 0x8B && b2 == 0x08
  | _ => false

/-- Lines 114 to 117: decompress when the sniffed type is gzip, otherwise
keep the buffer unchanged. -/
def sniffProcess (O : Oracle) (raw : Bytes) : Bytes :=
  if isGzipBytes raw then O.gunzipRes raw else raw

/-- The adapter event of the sniffing step: one gunzip call when the
buffer sniffs as gzip, none otherwise. -/
def sniffEvents (raw : Bytes) : List Event :=
  if isGzipBytes raw then [.gunzipCall raw] else []

/-- The cache lookup step, lines 78 to 91: with cacheMethod refresh or
none the reader is the no-op stub, otherwise adapter.readCache is called
on the cachePath-based file name. A none result models resolving to
undefined, which the source turns into a thrown error caught by the
fallback. -/
def cacheStep (O : Oracle) (opts : LangOptions) (lang : String) :
    List Event × Except Err (Option Bytes) :=
  if opts.cacheMethod == some "refresh" || opts.cacheMethod == some "none" then
    ([], .ok none)
  else
    ([.cacheRead (cacheFilePath opts lang)], O.cacheReadRes (cacheFilePath opts lang))

/-- The fallback step, lines 92 to 109: for a plain code, fetch over the
network when langPath is URL-like, otherwise read the langPath-based file
through adapter.readCache (an undefined result leaves data undefined, so
the Uint8Array built at line 112 is empty); for an inline spec, use the
supplied bytes directly. -/
def fallbackStep (O : Oracle) (opts : LangOptions) (spec : LangSpec) :
    List Event × Except Err Bytes :=
  match spec with
  | .code lang =>
    if urlishLangPath opts.langPath then
      ([.netFetch (pathFileName opts lang)], O.fetchRes (pathFileName opts lang))
    else
      ([.cacheRead (pathFileName opts lang)],
        match O.cacheReadRes (pathFileName opts lang) with
        | .ok (some bs) => .ok bs
        | .ok none => .ok []
        | .error e => .error e)
  | .inlineData _ bs => ([], .ok bs)

/-- Raw byte resolution of one spec, lines 78 to 112: cache hit (with its
progress emission at line 87), else the fallback step. -/
def resolveRawBytes (O : Oracle) (opts : LangOptions) (spec : LangSpec) :
    List Event × Except Err Bytes :=
  match cacheStep O opts spec.langCode with
  | (tr, .ok (some bs)) =>
      (tr ++ [.emit (.progress "loading language traineddata (from cache)" ((1 : ℚ)/2))],
        .ok bs)
  | (tr, .ok none) =>
      let r := fallbackStep O opts spec
      (tr ++ r.1, r.2)
  | (tr, .error _) =>
      let r := fallbackStep O opts spec
      (tr ++ r.1, r.2)

/-- Lines 119 to 128: when the module handle exists, create the data
directory when a dataPath is given (a failure is rejected on the response
emitter but does not abort), then write the final bytes into the virtual
filesystem. -/
def fsWriteStep (O : Oracle) (opts : LangOptions) (tessModule : Bool)
    (lang : String) (data : Bytes) : List Event :=
  if tessModule then
    (match opts.dataPath with
     | some d =>
       [Event.fsMkdir d] ++
         (match O.mkdirRes d with
          | .ok _ => []
          | .error e => [.emit (.reject (errStr e))])
     | none => []) ++
      [Event.fsWriteFile (orDot opts.dataPath ++ "/" ++ lang ++ ".traineddata") data]
  else []

/-- Lines 130 to 132: persist the resolved bytes back to cache when
cacheMethod is write, refresh, or undefined. -/
def cacheWriteStep (O : Oracle) (opts : LangOptions) (lang : String) (data : Bytes) :
    List Event × Except Err Unit :=
  if opts.cacheMethod == some "write" || opts.cacheMethod == some "refresh" ||
      opts.cacheMethod == none then
    ([.cacheWrite (cacheFilePath opts lang) data],
      O.writeCacheRes (cacheFilePath opts lang) data)
  else ([], .ok ())

/-- One spec of the batch, the inner function loadAndGunzipFile of
lines 76 to 135. -/
def loadAndGunzipFile (O : Oracle) (opts : LangOptions) (tessModule : Bool)
    (spec : LangSpec) : List Event × Except Err Bytes :=
  match resolveRawBytes O opts spec with
  | (tr, .error e) => (tr, .error e)
  | (tr, .ok raw) =>
    let data := sniffProcess O raw
    let tr2 := tr ++ sniffEvents raw ++ fsWriteStep O opts tessModule spec.langCode data
    match cacheWriteStep O opts spec.langCode data with
    | (tr3, .ok _) => (tr2 ++ tr3, .ok data)
    | (tr3, .error e) => (tr2 ++ tr3, .error e)

/-- The whole batch of specs, modelling Promise.all at line 139: every
spec runs to completion, the traces are gathered, and the outcome is the
first failure in list order when one exists. -/
def runSpecs (O : Oracle) (opts : LangOptions) (tessModule : Bool) :
    List LangSpec → List Event × Except Err Unit
  | [] => ([], .ok ())
  | sp :: rest =>
    let r := loadAndGunzipFile O opts tessModule sp
    let rr := runSpecs O opts tessModule rest
    (r.1 ++ rr.1, match r.2 with | .error e => .error e | .ok _ => rr.2)

/-- Structural model of the JS string split on the plus character used at
line 139. -/
def splitPlusChars : List Char → List (List Char)
  | [] => [[]]
  | c :: rest =>
    let r := splitPlusChars rest
    if c = '+' then [] :: r
    else
      match r with
      | [] => [[c]]
      | g :: gs => (c :: g) :: gs

/-- JS split of a combined language string on the plus character. -/
def splitPlus (s : String) : List String :=
  (splitPlusChars s.toList).map List.asString

/-- Line 139: a string langs argument is split on plus into independent
code specs; an array is used as given. -/
def specsOf : LangsArg → List LangSpec
  | .str s => (splitPlus s).map .code
  | .arr l => l

/-- The loadLanguage handler, lines 62 to 153: an initial progress, the
batch, then on success a final progress and a resolve carrying the
original langs value; on failure a reject, except the deliberately
swallowed DOMException in a web worker (lines 143 to 149). -/
def runLoadLanguage (O : Oracle) (st : WState) (langs : LangsArg)
    (opts : LangOptions) : List Event × WState :=
  let r := runSpecs O opts st.tessModule (specsOf langs)
  let pre := [Event.emit (.progress "loading language traineddata" (0 : ℚ))]
  match r.2 with
  | .ok _ =>
    (pre ++ r.1 ++
      [Event.emit (.progress "loaded language traineddata" (1 : ℚ)),
       Event.emit (.resolve (.langsVal langs))], st)
  | .error e =>
    if O.isWebWorker && e.isDOMException then (pre ++ r.1, st)
    else (pre ++ r.1 ++ [Event.emit (.reject (errStr e))], st)

/-- Association-list lookup modelling JS object indexing. -/
def plookup (k : String) : Params → Option String
  | [] => none
  | (k2, v) :: rest => if k2 = k then some v else plookup k rest

/-- Model of the JS object spread at line 161: keys of the old set in
order with values overridden by the new set, then the new keys not
already present. -/
def mergeParams (old nw : Params) : Params :=
  old.map (fun kv => (kv.1, (plookup kv.1 nw).getD kv.2)) ++
    nw.filter (fun kv => (plookup kv.1 old).isNone)

/-- The thrown TypeError of touching SetVariable on a null api. -/
def apiNullErr : Err := ⟨false, "TypeError: api is null"⟩

/-- The thrown TypeError of touching an undefined TessModule. -/
def tessModuleNullErr : Err := ⟨false, "TypeError: TessModule is undefined"⟩

/-- Lines 156 to 160: iterate the keys of the new parameters, skip those
in the reserved wrapper-only namespace, and push the rest through
api.SetVariable; a null api or a throwing call aborts the iteration with
that error. -/
def setVarEvents (O : Oracle) (apiPresent : Bool) : Params → List Event × Except Err Unit
  | [] => ([], .ok ())
  | (k, v) :: rest =>
    if strStarts "tessjs_" k then setVarEvents O apiPresent rest
    else if apiPresent then
      match O.setVarRes k v with
      | .ok _ =>
        let r := setVarEvents O apiPresent rest
        (Event.setVariable k v :: r.1, r.2)
      | .error e => ([Event.setVariable k v], .error e)
    else ([], .error apiNullErr)

/-- The setParameters handler, lines 155 to 166: push the non-reserved
keys into the api, merge the new parameters into the retained set, and
resolve with the merged set when a response emitter was supplied. A
thrown error escapes synchronously (to the dispatcher guard). -/
def runSetParameters (O : Oracle) (st : WState) (newParams : Params)
    (hasRes : Bool) : List Event × WState × Except Err Unit :=
  match setVarEvents O st.api newParams with
  | (tr, .error e) => (tr, st, .error e)
  | (tr, .ok _) =>
    let st2 := { st with params := mergeParams st.params newParams }
    if hasRes then
      (tr ++ [Event.emit (.resolve (.paramsVal st2.params))], st2, .ok ())
    else (tr, st2, .ok ())

/-- JS stringification of a byte array, as produced when an inline spec
reaches the join at line 174. -/
def jsBytesToString (bs : Bytes) : String :=
  String.intercalate "," (bs.map toString)

/-- Lines 172 to 174: a string langs argument is used as is; an array is
joined with plus, taking the string itself for string entries and the
data field for object entries. -/
def langsJoin : LangsArg → String
  | .str s => s
  | .arr l =>
    String.intercalate "+" (l.map (fun sp =>
      match sp with
      | .code c => c
      | .inlineData _ d => jsBytesToString d))

/-- Continuation of initialize after the optional End of the previous
instance: construct the new api (a missing module throws), call Init,
reset the retained parameters to the defaults and push them, then emit
the final progress and resolve; any thrown error is caught and rejected
(lines 183 to 193). -/
def initCont (O : Oracle) (st : WState) (langs : LangsArg) (oem : Int)
    (pre : List Event) : List Event × WState :=
  if st.tessModule = false then
    (pre ++ [Event.emit (.reject (errStr tessModuleNullErr))], st)
  else
    match O.initRes with
    | .error e =>
      (pre ++ [Event.apiNew, Event.apiInit (langsJoin langs) oem] ++
        [Event.emit (.reject (errStr e))], { st with api := true })
    | .ok _ =>
      match runSetParameters O { st with api := true, params := defaultParams }
          defaultParams false with
      | (tr2, st3, .ok _) =>
        (pre ++ [Event.apiNew, Event.apiInit (langsJoin langs) oem] ++ tr2 ++
          [Event.emit (.progress "initialized api" (1 : ℚ)),
           Event.emit (.resolve .unit)], st3)
      | (tr2, st3, .error e) =>
        (pre ++ [Event.apiNew, Event.apiInit (langsJoin langs) oem] ++ tr2 ++
          [Event.emit (.reject (errStr e))], st3)

/-- The initialize handler, lines 168 to 194: an initial progress, End of
the pre-existing instance when one exists (lines 180 to 182), then the
continuation; a throwing End is caught and rejected. -/
def runInitialize (O : Oracle) (st : WState) (langs : LangsArg) (oem : Int) :
    List Event × WState :=
  let pre := [Event.emit (.progress "initializing api" (0 : ℚ))]
  if st.api then
    match O.endRes with
    | .error e => (pre ++ [Event.apiEnd, Event.emit (.reject (errStr e))], st)
    | .ok _ => initCont O st langs oem (pre ++ [Event.apiEnd])
  else initCont O st langs oem pre

/-- The fixed lookup table of line 326 mapping orientation ids to
degrees. -/
def orientationDegrees (oid : Fin 4) : Nat := [0, 270, 180, 90].get oid

/-- The detect handler, lines 306 to 333: set the image, run DetectOS; an
explicit false return ends the api instance, frees the image and rejects
with the fixed message; a true return frees the image and resolves with
the detection result; thrown errors are caught and rejected. The
image-decoding helper is an external collaborator whose outcome (also
when the module handle is missing) is the setImageRes oracle. -/
def runDetect (O : Oracle) (st : WState) : List Event × WState :=
  match O.setImageRes with
  | .error e => ([Event.setImageCall, Event.emit (.reject (errStr e))], st)
  | .ok _ =>
    if st.api = false then
      ([Event.setImageCall, Event.emit (.reject (errStr apiNullErr))], st)
    else if O.detectOSRes = false then
      match O.endRes with
      | .error e =>
        ([Event.setImageCall, Event.detectOSCall, Event.apiEnd,
          Event.emit (.reject (errStr e))], st)
      | .ok _ =>
        ([Event.setImageCall, Event.detectOSCall, Event.apiEnd, Event.freeCall,
          Event.emit (.reject "Failed to detect OS")], st)
    else
      ([Event.setImageCall, Event.detectOSCall, Event.freeCall,
        Event.emit (.resolve (.detectVal
          { tesseract_script_id := O.scriptId
            script := O.scriptName
            script_confidence := O.sconfidence
            orientation_degrees := orientationDegrees O.orientationId
            orientation_confidence := O.oconfidence }))], st)

/-- The terminate handler, lines 335 to 344: End the instance when one
exists and resolve terminated; a throwing End is caught and rejected. The
api reference itself is not cleared by the source. -/
def runTerminate (O : Oracle) (st : WState) : List Event × WState :=
  if st.api then
    match O.endRes with
    | .error e => ([Event.apiEnd, Event.emit (.reject (errStr e))], st)
    | .ok _ => ([Event.apiEnd, Event.emit (.resolve .terminated)], st)
  else ([Event.emit (.resolve .terminated)], st)

/-- The load handler, lines 31 to 55: resolve immediately when the module
handle exists; otherwise obtain the core (a throwing getCore escapes to
the dispatcher guard), emit the first progress, and build the module with
Core. The promise returned by Core at line 38 has only a then handler and
no catch, so when it rejects (coreBuildRes error) the run stops after the
first progress with no terminal emission and the module handle unset; on
fulfilment the final progress and the resolve follow. Engine-driven
progress callbacks routed through the latest-job reference are outside
this model. -/
def runLoad (O : Oracle) (st : WState) : List Event × WState × Except Err Unit :=
  if st.tessModule then ([Event.emit (.resolve .loaded)], st, .ok ())
  else
    match O.getCoreRes with
    | .error e => ([Event.getCore], st, .error e)
    | .ok _ =>
      match O.coreBuildRes with
      | .error _ =>
        ([Event.getCore, Event.emit (.progress "initializing tesseract" (0 : ℚ))],
          st, .ok ())
      | .ok _ =>
        ([Event.getCore,
          Event.emit (.progress "initializing tesseract" (0 : ℚ)),
          Event.emit (.progress "initialized tesseract" (1 : ℚ)),
          Event.emit (.resolve .loaded)], { st with tessModule := true }, .ok ())

/-- The FS passthrough handler, lines 57 to 60: invoke the named virtual
filesystem method and resolve with its raw result; a missing module or a
throwing call escapes synchronously. -/
def runFS (O : Oracle) (st : WState) (method : String) :
    List Event × WState × Except Err Unit :=
  if st.tessModule = false then ([], st, .error tessModuleNullErr)
  else
    match O.fsCallRes method with
    | .ok _ => ([Event.fsCall method, Event.emit (.resolve .fsResult)], st, .ok ())
    | .error e => ([Event.fsCall method], st, .error e)

/-- The recognize handler, lines 196 to 221: the engine steps are
abstracted into one fallible call since only the emissions and the
resolve-before-free order matter here; a thrown error is caught and
rejected. -/
def runRecognize (O : Oracle) (st : WState) : List Event × WState :=
  match O.recognizeRes with
  | .ok _ =>
    ([Event.setImageCall, Event.emit (.resolve .recognizeResult), Event.freeCall], st)
  | .error e => ([Event.emit (.reject (errStr e))], st)

/-- The threshold handler, lines 276 to 294, likewise abstracted to one
fallible engine step producing the encoded preview image. -/
def runThreshold (O : Oracle) (st : WState) : List Event × WState :=
  match O.thresholdRes with
  | .ok _ =>
    ([Event.setImageCall, Event.freeCall,
      Event.emit (.resolve (.pngVal ("data:image/png;base64," ++ O.pngB64)))], st)
  | .error e => ([Event.emit (.reject (errStr e))], st)

/-- The getPDF handler, lines 296 to 304: render and resolve with the raw
document bytes; it has no guard of its own, so a thrown error escapes to
the dispatcher. -/
def runGetPDF (O : Oracle) (st : WState) : List Event × WState × Except Err Unit :=
  match O.pdfRes with
  | .ok bs => ([Event.pdfRender, Event.emit (.resolve (.pdfBytes bs))], st, .ok ())
  | .error e => ([Event.pdfRender], st, .error e)

/-- Action-specific payloads of a packet; fields not observable in this
model (images, logging options) are omitted. -/
inductive Payload
  | loadP
  | fsP (method : String)
  | loadLanguageP (langs : LangsArg) (opts : LangOptions)
  | initializeP (langs : LangsArg) (oem : Int)
  | setParametersP (ps : Params)
  | recognizeP
  | thresholdP
  | getPDFP
  | detectP
  | terminateP
deriving DecidableEq, Repr

/-- A request packet (section 6 of the worker contract). -/
structure Packet where
  workerId : String
  jobId : String
  action : String
  payload : Payload
deriving DecidableEq, Repr

/-- The ten supported action names, the keys of the handler map at
lines 373 to 384. -/
def actionNames : List String :=
  ["load", "FS", "loadLanguage", "initialize", "setParameters",
   "recognize", "threshold", "getPDF", "detect", "terminate"]

/-- The handler map at line 373 is a plain object literal, so the lookup
at line 384 also finds the function-valued properties it inherits from
Object.prototype. For these names the inherited function is invoked with
the packet and the emitter, returns without throwing, and never touches
the response emitter. -/
def protoFunctionNames : List String :=
  ["constructor", "hasOwnProperty", "isPrototypeOf", "propertyIsEnumerable",
   "toLocaleString", "toString", "valueOf",
   "__defineGetter__", "__defineSetter__", "__lookupGetter__", "__lookupSetter__"]

/-- Whether a payload has the shape the external interface (section 6 of
the spec) prescribes for the given action name. -/
def payloadMatches : String → Payload → Bool
  | "load", .loadP => true
  | "FS", .fsP _ => true
  | "loadLanguage", .loadLanguageP _ _ => true
  | "initialize", .initializeP _ _ => true
  | "setParameters", .setParametersP _ => true
  | "recognize", .recognizeP => true
  | "threshold", .thresholdP => true
  | "getPDF", .getPDFP => true
  | "detect", .detectP => true
  | "terminate", .terminateP => true
  | _, _ => false

/-- Model of the stringified TypeError raised when the handler lookup
yields undefined and the call at line 384 fails; the exact wording is
engine dependent, the dispatcher carries it verbatim. -/
def lookupErrMsg (a : String) : String :=
  "TypeError: handlers[" ++ a ++ "] is not a function"

/-- The stringified TypeError of destructuring a payload of the wrong
shape inside a handler. -/
def payloadErr : Err := ⟨false, "TypeError: payload mismatch"⟩

/-- Route a packet with a known action name to its handler; an error in
the third component is a synchronous throw escaping the handler. A
payload of the wrong shape makes the destructuring in the handler head
throw: synchronously for the plain handlers (caught by the dispatcher
guard), but inside the async loadLanguage handler it only rejects the
returned promise, which nothing awaits, so that case produces no
emission at all. -/
def runAction (O : Oracle) (st : WState) (p : Packet) :
    List Event × WState × Except Err Unit :=
  match p.action, p.payload with
  | "load", .loadP => runLoad O st
  | "FS", .fsP m => runFS O st m
  | "loadLanguage", .loadLanguageP langs opts =>
    let r := runLoadLanguage O st langs opts
    (r.1, r.2, .ok ())
  | "initialize", .initializeP langs oem =>
    let r := runInitialize O st langs oem
    (r.1, r.2, .ok ())
  | "setParameters", .setParametersP ps => runSetParameters O st ps true
  | "recognize", .recognizeP =>
    let r := runRecognize O st
    (r.1, r.2, .ok ())
  | "threshold", .thresholdP =>
    let r := runThreshold O st
    (r.1, r.2, .ok ())
  | "getPDF", .getPDFP => runGetPDF O st
  | "detect", .detectP =>
    let r := runDetect O st
    (r.1, r.2, .ok ())
  | "terminate", .terminateP =>
    let r := runTerminate O st
    (r.1, r.2, .ok ())
  | "loadLanguage", _ => ([], st, .ok ())
  | _, _ => ([], st, .error payloadErr)

/-- The guard of lines 372 to 388: a synchronous throw out of the handler
is converted into a reject carrying the stringified error. -/
def dispatchWrap (r : List Event × WState × Except Err Unit) : List Event × WState :=
  match r with
  | (tr, st2, .ok _) => (tr, st2)
  | (tr, st2, .error e) => (tr ++ [Event.emit (.reject (errStr e))], st2)

/-- The dispatcher, lines 358 to 389: build the response emitter, look up
the handler by action name and invoke it under the guard. For an action
name that is neither a supported name nor an inherited Object.prototype
function name, the lookup yields undefined, the invocation throws, and
the guard converts it into a reject carrying the stringified lookup
error; for an inherited Object.prototype function name the invocation
succeeds silently and nothing is emitted. -/
def dispatchHandlers (O : Oracle) (st : WState) (p : Packet) : List Event × WState :=
  if p.action ∈ actionNames then dispatchWrap (runAction O st p)
  else if p.action ∈ protoFunctionNames then ([], st)
  else ([Event.emit (.reject (lookupErrMsg p.action))], st)

/-- Test for an adapter.readCache invocation event. -/
def isCacheReadEvent : Event → Bool
  | .cacheRead _ => true
  | _ => false

/-- Test for an adapter.writeCache invocation event. -/
def isCacheWriteEvent : Event → Bool
  | .cacheWrite _ _ => true
  | _ => false

/-- Test for a network fetch event. -/
def isNetFetchEvent : Event → Bool
  | .netFetch _ => true
  | _ => false

/-- Test for a gunzip invocation event. -/
def isGunzipEvent : Event → Bool
  | .gunzipCall _ => true
  | _ => false

/-- Test for a virtual filesystem write event. -/
def isFsWriteEvent : Event → Bool
  | .fsWriteFile _ _ => true
  | _ => false

/-- Test for a resolve emission event. -/
def isResolveEvent : Event → Bool
  | .emit (.resolve _) => true
  | _ => false

/-- Test for a SetVariable call on the given key. -/
def isSetVarKey (k : String) : Event → Bool
  | .setVariable k2 _ => k2 == k
  | _ => false

/-- Test for a TessBaseAPI construction event. -/
def isApiNewEvent : Event → Bool
  | .apiNew => true
  | _ => false

/-- An oracle on which every external call succeeds: cache lookups miss,
fetches yield a small plain buffer, every engine call returns cleanly and
OS detection reports failure. -/
def oracleOK : Oracle :=
  { getCoreRes := Except.ok ()
    coreBuildRes := Except.ok ()
    cacheReadRes := fun _ => Except.ok none
    fetchRes := fun _ => Except.ok [1, 2, 3]
    gunzipRes := fun bs => bs.drop 3
    mkdirRes := fun _ => Except.ok ()
    writeCacheRes := fun _ _ => Except.ok ()
    fsCallRes := fun _ => Except.ok ()
    endRes := Except.ok ()
    initRes := Except.ok ()
    setVarRes := fun _ _ => Except.ok ()
    setImageRes := Except.ok ()
    detectOSRes := false
    scriptId := 1
    scriptName := "Latin"
    sconfidence := 9
    orientationId := 0
    oconfidence := 8
    recognizeRes := Except.ok ()
    thresholdRes := Except.ok ()
    pdfRes := Except.ok [1]
    pngB64 := "AA=="
    isWebWorker := false }

/-- A worker state with the module loaded, a live api instance and the
default parameters. -/
def st0 : WState := { tessModule := true, api := true, params := defaultParams }

/-- Options with a URL langPath, a data path, and cache disabled. -/
def optsCE1 : LangOptions :=
  { langPath := "http://tess", dataPath := some "/data", cachePath := none,
    cacheMethod := some "none", gzip := true }

/-- An oracle identical to oracleOK except that directory creation in the
virtual filesystem fails. -/
def oracleCE1 : Oracle :=
  { oracleOK with mkdirRes := fun _ => Except.error ⟨false, "Error: mkdir failed"⟩ }

/-- A loadLanguage packet for one plain language over optsCE1. -/
def pktCE1 : Packet :=
  { workerId := "w", jobId := "j", action := "loadLanguage",
    payload := .loadLanguageP (.str "eng") optsCE1 }

/-- Options with a local (non-URL) langPath and cache disabled. -/
def optsCE4 : LangOptions :=
  { langPath := "/lang", dataPath := none, cachePath := none,
    cacheMethod := some "none", gzip := true }

/-- Options with every optional field left undefined, the default
configuration shape: cacheMethod undefined, gzip true. -/
def optsCE5 : LangOptions :=
  { langPath := "http://tess", dataPath := none, cachePath := none,
    cacheMethod := none, gzip := true }

/-- A packet whose action is none of the ten supported names. -/
def pktUnknown : Packet :=
  { workerId := "w", jobId := "j", action := "explode", payload := .loadP }

/-- A packet whose action names a function the handler-map object literal
inherits from Object.prototype. -/
def pktToString : Packet :=
  { workerId := "w", jobId := "j", action := "toString", payload := .loadP }

/-- A terminate packet. -/
def pktTerminate : Packet :=
  { workerId := "w", jobId := "j", action := "terminate", payload := .terminateP }

/-! Lookup lemmas for the association-list model of JS objects. -/

theorem plookup_append (k : String) (l1 l2 : Params) :
    plookup k (l1 ++ l2) =
      (match plookup k l1 with
       | some v => some v
       | none => plookup k l2) := by
  induction l1 with
  | nil => simp [plookup]
  | cons kv rest ih =>
    obtain ⟨k2, v⟩ := kv
    by_cases h : k2 = k <;> simp [plookup, h, ih]

theorem plookup_map_override (k : String) (old nw : Params) :
    plookup k (old.map (fun kv => (kv.1, (plookup kv.1 nw).getD kv.2))) =
      (plookup k old).map (fun v => (plookup k nw).getD v) := by
  induction old with
  | nil => simp [plookup]
  | cons kv rest ih =>
    obtain ⟨k2, v⟩ := kv
    by_cases h : k2 = k
    · subst h; simp [plookup]
    · simp [plookup, h, ih]

theorem plookup_filter_keep (k : String) (p : String × String → Bool) (nw : Params)
    (h : ∀ kv ∈ nw, kv.1 = k → p kv = true) :
    plookup k (nw.filter p) = plookup k nw := by
  induction nw with
  | nil => rfl
  | cons kv rest ih =>
    have hrest : ∀ kv2 ∈ rest, kv2.1 = k → p kv2 = true :=
      fun kv2 hm => h kv2 (List.mem_cons_of_mem kv hm)
    obtain ⟨k2, v⟩ := kv
    by_cases hk : k2 = k
    · subst hk
      have hp : p (k2, v) = true := h (k2, v) (List.mem_cons_self _ _) rfl
      simp [List.filter_cons, hp, plookup]
    · cases hp : p (k2, v) with
      | true => simp [List.filter_cons, hp, plookup, hk, ih hrest]
      | false => simp [List.filter_cons, hp, plookup, hk, ih hrest]

theorem plookup_mergeParams (old nw : Params) (k : String) :
    plookup k (mergeParams old nw) =
      (match plookup k old with
       | some v => some ((plookup k nw).getD v)
       | none => plookup k nw) := by
  unfold mergeParams
  rw [plookup_append, plookup_map_override]
  cases hk : plookup k old with
  | some v => simp
  | none =>
    simp only [Option.map_none']
    exact plookup_filter_keep k _ nw (fun kv hm hkk => by
      simp [hkk, hk])

theorem mem_of_plookup (k v : String) (ps : Params) (h : plookup k ps = some v) :
    (k, v) ∈ ps := by
  induction ps with
  | nil => simp [plookup] at h
  | cons kv rest ih =>
    obtain ⟨k2, v2⟩ := kv
    by_cases hk : k2 = k
    · subst hk
      simp [plookup] at h
      simp [h]
    · simp [plookup, hk] at h
      exact List.mem_cons_of_mem _ (ih h)

/-! Lemmas about the SetVariable iteration of setParameters. -/

theorem setVarEvents_ok (O : Oracle) (ps : Params)
    (hsv : ∀ k v, O.setVarRes k v = Except.ok ()) :
    (setVarEvents O true ps).2 = Except.ok () := by
  induction ps with
  | nil => rfl
  | cons kv rest ih =>
    obtain ⟨k, v⟩ := kv
    cases h : strStarts "tessjs_" k <;> simp [setVarEvents, h, hsv, ih]

theorem setVarEvents_trace (O : Oracle) (ps : Params)
    (hsv : ∀ k v, O.setVarRes k v = Except.ok ()) :
    (setVarEvents O true ps).1 =
      (ps.filter (fun kv => !(strStarts "tessjs_" kv.1))).map
        (fun kv => Event.setVariable kv.1 kv.2) := by
  induction ps with
  | nil => rfl
  | cons kv rest ih =>
    obtain ⟨k, v⟩ := kv
    cases h : strStarts "tessjs_" k <;>
      simp [setVarEvents, h, hsv, ih, List.filter_cons]

theorem runSetParameters_ok (O : Oracle) (st : WState) (ps : Params) (hr : Bool)
    (hapi : st.api = true) (hsv : ∀ k v, O.setVarRes k v = Except.ok ()) :
    runSetParameters O st ps hr =
      ((ps.filter (fun kv => !(strStarts "tessjs_" kv.1))).map
          (fun kv => Event.setVariable kv.1 kv.2) ++
        (if hr then
          [Event.emit (.resolve (.paramsVal (mergeParams st.params ps)))]
         else []),
       { st with params := mergeParams st.params ps }, Except.ok ()) := by
  have h1 := setVarEvents_trace O ps hsv
  have h2 := setVarEvents_ok O ps hsv
  unfold runSetParameters
  rw [hapi]
  rcases hse : setVarEvents O true ps with ⟨tr, r⟩
  rw [hse] at h1 h2
  simp only at h1 h2
  subst h1
  subst h2
  cases hr <;> simp

/-- Claim C6: for every mapping passed to setParameters, every key
starting with the reserved wrapper-only namespace is retained in the
merged parameter set but never forwarded to SetVariable, while every
non-reserved key is forwarded with its value, under a live api instance
and non-throwing SetVariable calls. -/
theorem C6_reserved_namespace_keys (O : Oracle) (st : WState) (newParams : Params)
    (k v : String)
    (hapi : st.api = true) (hsv : ∀ k2 v2, O.setVarRes k2 v2 = Except.ok ())
    (hmem : plookup k newParams = some v) :
    plookup k (runSetParameters O st newParams true).2.1.params = some v ∧
    (strStarts "tessjs_" k = true →
      ((runSetParameters O st newParams true).1.all
        (fun e => !(isSetVarKey k e))) = true) ∧
    (strStarts "tessjs_" k = false →
      Event.setVariable k v ∈ (runSetParameters O st newParams true).1) := by
  rw [runSetParameters_ok O st newParams true hapi hsv]
  refine ⟨?_, ?_, ?_⟩
  · show plookup k (mergeParams st.params newParams) = some v
    rw [plookup_mergeParams]
    cases hk : plookup k st.params <;> simp [hmem]
  · intro hpre
    rw [List.all_eq_true]
    intro e he
    simp only [List.mem_append, List.mem_map, List.mem_filter] at he
    rcases he with ⟨kv, hkv, rfl⟩ | he2
    · by_cases hq : kv.1 = k
      · rw [hq, hpre] at hkv
        simp at hkv
      · simp [isSetVarKey, hq]
    · simp only [if_true] at he2
      simp only [List.mem_singleton] at he2
      subst he2
      rfl
  · intro hpre
    refine List.mem_append.mpr (Or.inl ?_)
    refine List.mem_map.mpr ⟨(k, v), ?_, rfl⟩
    refine List.mem_filter.mpr ⟨mem_of_plookup k v newParams hmem, ?_⟩
    simp [hpre]

/-- Witness for claim C6 at a concrete mapping with one plain and one
reserved key. -/
theorem C6_witness :
    plookup "pp" (runSetParameters oracleOK st0
        [("pp", "9"), ("tessjs_q", "1")] true).2.1.params = some "9" ∧
    (strStarts "tessjs_" "pp" = true →
      ((runSetParameters oracleOK st0 [("pp", "9"), ("tessjs_q", "1")] true).1.all
        (fun e => !(isSetVarKey "pp" e))) = true) ∧
    (strStarts "tessjs_" "pp" = false →
      Event.setVariable "pp" "9" ∈
        (runSetParameters oracleOK st0 [("pp", "9"), ("tessjs_q", "1")] true).1) :=
  C6_reserved_namespace_keys oracleOK st0 [("pp", "9"), ("tessjs_q", "1")]
    "pp" "9" rfl (fun _ _ => rfl) rfl

/-- Sequential composition of two setParameters packets: the second run
starts in the state left by the first. -/
def twoSetParams (O : Oracle) (st : WState) (p1 p2 : Params) :
    (List Event × WState × Except Err Unit) × (List Event × WState × Except Err Unit) :=
  (runSetParameters O st p1 true,
   runSetParameters O (runSetParameters O st p1 true).2.1 p2 true)

/-- Claim C7: two successive setParameters calls merge both mappings over
the defaults with last write winning per key, and each call resolves with
the full merged parameter set, under a live api instance, non-throwing
SetVariable calls, and a parameter set starting at the defaults. -/
theorem C7_two_successive_calls (O : Oracle) (st : WState) (p1 p2 : Params)
    (k : String)
    (hapi : st.api = true) (hsv : ∀ k2 v2, O.setVarRes k2 v2 = Except.ok ())
    (hd : st.params = defaultParams) :
    plookup k (twoSetParams O st p1 p2).2.2.1.params =
      (match plookup k p2 with
       | some v => some v
       | none =>
         match plookup k p1 with
         | some v => some v
         | none => plookup k defaultParams) ∧
    (twoSetParams O st p1 p2).1.1.getLast? =
      some (Event.emit (.resolve (.paramsVal (twoSetParams O st p1 p2).1.2.1.params))) ∧
    (twoSetParams O st p1 p2).2.1.getLast? =
      some (Event.emit (.resolve (.paramsVal (twoSetParams O st p1 p2).2.2.1.params))) := by
  have h1 := runSetParameters_ok O st p1 true hapi hsv
  have h2 := runSetParameters_ok O { st with params := mergeParams st.params p1 }
    p2 true hapi hsv
  unfold twoSetParams
  simp only [h1, h2]
  refine ⟨?_, ?_, ?_⟩
  · rw [hd, plookup_mergeParams, plookup_mergeParams]
    cases hq2 : plookup k p2 <;> cases hq1 : plookup k p1 <;>
      cases hq0 : plookup k defaultParams <;> simp
  · simp
  · simp

/-- Witness for claim C7 at two concrete disjoint mappings. -/
theorem C7_witness :
    plookup "a" (twoSetParams oracleOK st0 [("a", "1")] [("b", "2")]).2.2.1.params =
      (match plookup "a" [("b", "2")] with
       | some v => some v
       | none =>
         match plookup "a" [("a", "1")] with
         | some v => some v
         | none => plookup "a" defaultParams) ∧
    (twoSetParams oracleOK st0 [("a", "1")] [("b", "2")]).1.1.getLast? =
      some (Event.emit (.resolve (.paramsVal
        (twoSetParams oracleOK st0 [("a", "1")] [("b", "2")]).1.2.1.params))) ∧
    (twoSetParams oracleOK st0 [("a", "1")] [("b", "2")]).2.1.getLast? =
      some (Event.emit (.resolve (.paramsVal
        (twoSetParams oracleOK st0 [("a", "1")] [("b", "2")]).2.2.1.params))) :=
  C7_two_successive_calls oracleOK st0 [("a", "1")] [("b", "2")] "a"
    rfl (fun _ _ => rfl) rfl

/-- Claim C2 counterexample: the action name toString is none of the ten
supported names, yet dispatching it emits nothing at all, because the
handler-map object literal inherits toString from Object.prototype and
the lookup at line 384 finds and invokes that function without throwing;
so the claim that every unsupported name yields exactly one reject
fails. -/
theorem C2_counterexample :
    (dispatchHandlers oracleOK st0 pktToString).1 = [] := by
  decide

/-- Claim C2 as amended: dispatching a packet whose action is none of the
ten supported names yields exactly one reject carrying the stringified
lookup error, unless the name is that of a function the handler-map
object literal inherits from Object.prototype, in which case the
inherited function is invoked and returns with no emission at all. -/
theorem C2_amended_unknown_action (O : Oracle) (st : WState) (p : Packet)
    (h : p.action ∉ actionNames) :
    (p.action ∉ protoFunctionNames →
      dispatchHandlers O st p =
        ([Event.emit (.reject (lookupErrMsg p.action))], st)) ∧
    (p.action ∈ protoFunctionNames → dispatchHandlers O st p = ([], st)) := by
  unfold dispatchHandlers
  rw [if_neg h]
  constructor
  · intro h2
    rw [if_neg h2]
  · intro h2
    rw [if_pos h2]

/-- Witness for the amended claim C2 at a concrete packet with an
unsupported, non-inherited action name. -/
theorem C2_witness :
    ("explode" ∉ protoFunctionNames →
      dispatchHandlers oracleOK st0 pktUnknown =
        ([Event.emit (.reject (lookupErrMsg "explode"))], st0)) ∧
    ("explode" ∈ protoFunctionNames →
      dispatchHandlers oracleOK st0 pktUnknown = ([], st0)) :=
  C2_amended_unknown_action oracleOK st0 pktUnknown (by decide)

/-- Characterization of a fully successful initialize run from a state
with a live api instance and a loaded module. -/
theorem runInitialize_ok (O : Oracle) (st : WState) (langs : LangsArg) (oem : Int)
    (hapi : st.api = true) (htm : st.tessModule = true)
    (hend : O.endRes = Except.ok ()) (hinit : O.initRes = Except.ok ())
    (hsv : ∀ k v, O.setVarRes k v = Except.ok ()) :
    runInitialize O st langs oem =
      ([Event.emit (.progress "initializing api" (0 : ℚ)), Event.apiEnd, Event.apiNew,
        Event.apiInit (langsJoin langs) oem,
        Event.setVariable "tessedit_ocr_engine_mode" "2",
        Event.setVariable "tessedit_pageseg_mode" "3",
        Event.emit (.progress "initialized api" (1 : ℚ)),
        Event.emit (.resolve .unit)],
       { st with api := true, params := defaultParams }) := by
  have hsp := runSetParameters_ok O
    { tessModule := true, api := true, params := defaultParams }
    defaultParams false rfl hsv
  unfold runInitialize initCont
  rw [hapi, hend, htm, hinit]
  simp only [hsp]
  rfl

/-- Claim C3: from every state with a live api instance, initialize calls
End strictly before the single construction of the new TessBaseAPI
instance, and leaves the retained parameter set equal to the fixed
default set, under non-throwing engine calls. -/
theorem C3_end_before_new (O : Oracle) (st : WState) (langs : LangsArg) (oem : Int)
    (hapi : st.api = true) (htm : st.tessModule = true)
    (hend : O.endRes = Except.ok ()) (hinit : O.initRes = Except.ok ())
    (hsv : ∀ k v, O.setVarRes k v = Except.ok ()) :
    (∃ i j, i < j ∧ (runInitialize O st langs oem).1.get? i = some Event.apiEnd ∧
      (runInitialize O st langs oem).1.get? j = some Event.apiNew) ∧
    (runInitialize O st langs oem).1.countP isApiNewEvent = 1 ∧
    (runInitialize O st langs oem).2.params = defaultParams := by
  rw [runInitialize_ok O st langs oem hapi htm hend hinit hsv]
  exact ⟨⟨1, 2, by omega, rfl, rfl⟩, rfl, rfl⟩

/-- Witness for claim C3 at a concrete state and language argument. -/
theorem C3_witness :
    (∃ i j, i < j ∧ (runInitialize oracleOK st0 (.str "eng") 2).1.get? i = some Event.apiEnd ∧
      (runInitialize oracleOK st0 (.str "eng") 2).1.get? j = some Event.apiNew) ∧
    (runInitialize oracleOK st0 (.str "eng") 2).1.countP isApiNewEvent = 1 ∧
    (runInitialize oracleOK st0 (.str "eng") 2).2.params = defaultParams :=
  C3_end_before_new oracleOK st0 (.str "eng") 2 rfl rfl rfl rfl (fun _ _ => rfl)

/-- Claim C9: when OS detection returns false, detect ends the api
instance and rejects with exactly the fixed message, and emits no
resolve, under a live api instance and non-throwing setImage and End. -/
theorem C9_detect_failure (O : Oracle) (st : WState)
    (hapi : st.api = true) (hsi : O.setImageRes = Except.ok ())
    (hend : O.endRes = Except.ok ()) (hdet : O.detectOSRes = false) :
    runDetect O st =
      ([Event.setImageCall, Event.detectOSCall, Event.apiEnd, Event.freeCall,
        Event.emit (.reject "Failed to detect OS")], st) ∧
    ((runDetect O st).1.all (fun e => !(isResolveEvent e))) = true := by
  have h : runDetect O st =
      ([Event.setImageCall, Event.detectOSCall, Event.apiEnd, Event.freeCall,
        Event.emit (.reject "Failed to detect OS")], st) := by
    unfold runDetect
    rw [hsi, hapi, hdet, hend]
    simp
  exact ⟨h, by rw [h]; rfl⟩

/-- Witness for claim C9 at a concrete state and oracle whose OS
detection fails. -/
theorem C9_witness :
    runDetect oracleOK st0 =
      ([Event.setImageCall, Event.detectOSCall, Event.apiEnd, Event.freeCall,
        Event.emit (.reject "Failed to detect OS")], st0) ∧
    ((runDetect oracleOK st0).1.all (fun e => !(isResolveEvent e))) = true :=
  C9_detect_failure oracleOK st0 rfl rfl rfl rfl

/-! Lemmas locating adapter.readCache invocations inside loadLanguage
runs with cache behavior none. -/

theorem cacheStep_none_trace (O : Oracle) (opts : LangOptions) (lang : String)
    (hcm : opts.cacheMethod = some "none") :
    cacheStep O opts lang = ([], Except.ok none) := by
  unfold cacheStep
  rw [hcm]
  rfl

theorem cacheWriteStep_none_trace (O : Oracle) (opts : LangOptions) (lang : String)
    (hcm : opts.cacheMethod = some "none") (d : Bytes) :
    cacheWriteStep O opts lang d = ([], Except.ok ()) := by
  unfold cacheWriteStep
  rw [hcm]
  rfl

theorem loadAndGunzip_trace_error (O : Oracle) (opts : LangOptions) (tm : Bool)
    (sp : LangSpec) (tr : List Event) (e : Err)
    (hr : resolveRawBytes O opts sp = (tr, Except.error e)) :
    (loadAndGunzipFile O opts tm sp).1 = tr := by
  unfold loadAndGunzipFile
  rw [hr]

theorem loadAndGunzip_trace_ok (O : Oracle) (opts : LangOptions) (tm : Bool)
    (sp : LangSpec) (tr : List Event) (raw : Bytes)
    (hr : resolveRawBytes O opts sp = (tr, Except.ok raw)) :
    (loadAndGunzipFile O opts tm sp).1 =
      tr ++ sniffEvents raw ++ fsWriteStep O opts tm sp.langCode (sniffProcess O raw) ++
        (cacheWriteStep O opts sp.langCode (sniffProcess O raw)).1 := by
  unfold loadAndGunzipFile
  rw [hr]
  rcases hcw : cacheWriteStep O opts sp.langCode (sniffProcess O raw) with ⟨tr3, r3⟩
  cases r3 <;> simp [hcw]

theorem runLoadLanguage_trace_ok (O : Oracle) (st : WState) (langs : LangsArg)
    (opts : LangOptions)
    (hok : (runSpecs O opts st.tessModule (specsOf langs)).2 = Except.ok ()) :
    (runLoadLanguage O st langs opts).1 =
      [Event.emit (.progress "loading language traineddata" (0 : ℚ))] ++
        (runSpecs O opts st.tessModule (specsOf langs)).1 ++
        [Event.emit (.progress "loaded language traineddata" (1 : ℚ)),
         Event.emit (.resolve (.langsVal langs))] := by
  unfold runLoadLanguage
  rcases hr : runSpecs O opts st.tessModule (specsOf langs) with ⟨tr, r⟩
  rw [hr] at hok
  simp only at hok
  subst hok
  simp

theorem runLoadLanguage_trace_error (O : Oracle) (st : WState) (langs : LangsArg)
    (opts : LangOptions) (e : Err)
    (herr : (runSpecs O opts st.tessModule (specsOf langs)).2 = Except.error e) :
    (runLoadLanguage O st langs opts).1 =
      (if O.isWebWorker && e.isDOMException then
        [Event.emit (.progress "loading language traineddata" (0 : ℚ))] ++
          (runSpecs O opts st.tessModule (specsOf langs)).1
       else
        [Event.emit (.progress "loading language traineddata" (0 : ℚ))] ++
          (runSpecs O opts st.tessModule (specsOf langs)).1 ++
          [Event.emit (.reject (errStr e))]) := by
  unfold runLoadLanguage
  rcases hr : runSpecs O opts st.tessModule (specsOf langs) with ⟨tr, r⟩
  rw [hr] at herr
  simp only at herr
  subst herr
  cases hw : O.isWebWorker && e.isDOMException <;> simp [hw]

theorem fallback_cacheRead (O : Oracle) (opts : LangOptions) (sp : LangSpec) (q : String)
    (hq : Event.cacheRead q ∈ (fallbackStep O opts sp).1) :
    urlishLangPath opts.langPath = false ∧ q = pathFileName opts sp.langCode := by
  unfold fallbackStep at hq
  cases sp with
  | code lang =>
    cases hu : urlishLangPath opts.langPath
    · rw [hu] at hq
      simp at hq
      exact ⟨rfl, hq⟩
    · rw [hu] at hq
      simp at hq
  | inlineData c bs => simp at hq

theorem resolveRaw_cacheRead_none (O : Oracle) (opts : LangOptions) (sp : LangSpec)
    (q : String) (hcm : opts.cacheMethod = some "none")
    (hq : Event.cacheRead q ∈ (resolveRawBytes O opts sp).1) :
    urlishLangPath opts.langPath = false ∧ q = pathFileName opts sp.langCode := by
  unfold resolveRawBytes at hq
  rw [cacheStep_none_trace O opts sp.langCode hcm] at hq
  simp at hq
  exact fallback_cacheRead O opts sp q hq

theorem sniff_no_cacheRead (raw : Bytes) (q : String) :
    Event.cacheRead q ∉ sniffEvents raw := by
  unfold sniffEvents
  cases h : isGzipBytes raw <;> simp

theorem fsWriteStep_no_cacheRead (O : Oracle) (opts : LangOptions) (tm : Bool)
    (lang : String) (d : Bytes) (q : String) :
    Event.cacheRead q ∉ fsWriteStep O opts tm lang d := by
  unfold fsWriteStep
  cases tm
  · simp
  · cases opts.dataPath with
    | none => simp
    | some dir => cases hmk : O.mkdirRes dir <;> simp [hmk]

theorem loadAndGunzip_cacheRead_none (O : Oracle) (opts : LangOptions) (tm : Bool)
    (sp : LangSpec) (q : String) (hcm : opts.cacheMethod = some "none")
    (hq : Event.cacheRead q ∈ (loadAndGunzipFile O opts tm sp).1) :
    urlishLangPath opts.langPath = false ∧ q = pathFileName opts sp.langCode := by
  rcases hr : resolveRawBytes O opts sp with ⟨tr, r⟩
  have hmemtr : Event.cacheRead q ∈ tr →
      urlishLangPath opts.langPath = false ∧ q = pathFileName opts sp.langCode := by
    intro hm
    refine resolveRaw_cacheRead_none O opts sp q hcm ?_
    rw [hr]
    exact hm
  cases r with
  | error e =>
    rw [loadAndGunzip_trace_error O opts tm sp tr e hr] at hq
    exact hmemtr hq
  | ok raw =>
    rw [loadAndGunzip_trace_ok O opts tm sp tr raw hr,
      cacheWriteStep_none_trace O opts sp.langCode hcm (sniffProcess O raw)] at hq
    simp only [List.append_nil, List.mem_append] at hq
    rcases hq with (hq | hq) | hq
    · exact hmemtr hq
    · exact absurd hq (sniff_no_cacheRead raw q)
    · exact absurd hq (fsWriteStep_no_cacheRead O opts tm sp.langCode (sniffProcess O raw) q)

theorem runSpecs_cacheRead_none (O : Oracle) (opts : LangOptions) (tm : Bool)
    (l : List LangSpec) (q : String) (hcm : opts.cacheMethod = some "none")
    (hq : Event.cacheRead q ∈ (runSpecs O opts tm l).1) :
    urlishLangPath opts.langPath = false ∧
      ∃ sp ∈ l, q = pathFileName opts sp.langCode := by
  induction l with
  | nil => simp [runSpecs] at hq
  | cons sp rest ih =>
    rw [runSpecs] at hq
    simp only [List.mem_append] at hq
    rcases hq with hq | hq
    · obtain ⟨hu, he⟩ := loadAndGunzip_cacheRead_none O opts tm sp q hcm hq
      exact ⟨hu, sp, List.mem_cons_self _ _, he⟩
    · obtain ⟨hu, sp2, hm, he⟩ := ih hq
      exact ⟨hu, sp2, List.mem_cons_of_mem _ hm, he⟩

theorem runLoadLanguage_cacheRead_none (O : Oracle) (st : WState) (langs : LangsArg)
    (opts : LangOptions) (q : String) (hcm : opts.cacheMethod = some "none")
    (hq : Event.cacheRead q ∈ (runLoadLanguage O st langs opts).1) :
    urlishLangPath opts.langPath = false ∧
      ∃ sp ∈ specsOf langs, q = pathFileName opts sp.langCode := by
  have hmemtr := runSpecs_cacheRead_none O opts st.tessModule (specsOf langs) q hcm
  rcases hr : (runSpecs O opts st.tessModule (specsOf langs)).2 with e | u
  · rw [runLoadLanguage_trace_error O st langs opts e hr] at hq
    cases hw : O.isWebWorker && e.isDOMException
    · rw [hw] at hq
      simp at hq
      exact hmemtr hq
    · rw [hw] at hq
      simp at hq
      exact hmemtr hq
  · rw [runLoadLanguage_trace_ok O st langs opts hr] at hq
    simp at hq
    exact hmemtr hq

/-- Claim C4 counterexample: with cache behavior none and a local
(non-URL) langPath, resolving one plain language does invoke the adapter
cache-read function (as the local file read of line 105), so the claim as
stated fails. -/
theorem C4_counterexample :
    ((runLoadLanguage oracleOK st0 (.str "eng") optsCE4).1.any isCacheReadEvent) = true := by
  decide

/-- Claim C4 as amended: with cache behavior none the cache lookup step
never invokes the adapter reader, so resolution proceeds directly to
path/network resolution; every adapter read that still occurs is the
langPath-based local file read of one of the specs, and when langPath is
a URL no adapter read occurs at all. -/
theorem C4_amended_skips_cache_lookup (O : Oracle) (st : WState) (langs : LangsArg)
    (opts : LangOptions) (hcm : opts.cacheMethod = some "none") :
    ((runLoadLanguage O st langs opts).1.all (fun e =>
      match e with
      | Event.cacheRead q =>
        (specsOf langs).any (fun sp => pathFileName opts sp.langCode == q)
      | _ => true)) = true ∧
    (urlishLangPath opts.langPath = true →
      ((runLoadLanguage O st langs opts).1.all (fun e => !(isCacheReadEvent e))) = true) := by
  constructor
  · rw [List.all_eq_true]
    intro e he
    cases e <;> try rfl
    case cacheRead q =>
      obtain ⟨_, sp, hm, he2⟩ := runLoadLanguage_cacheRead_none O st langs opts q hcm he
      show ((specsOf langs).any (fun sp => pathFileName opts sp.langCode == q)) = true
      rw [List.any_eq_true]
      refine ⟨sp, hm, ?_⟩
      rw [he2]
      exact beq_self_eq_true _
  · intro hurl
    rw [List.all_eq_true]
    intro e he
    cases e <;> try rfl
    case cacheRead q =>
      obtain ⟨hf, _⟩ := runLoadLanguage_cacheRead_none O st langs opts q hcm he
      rw [hurl] at hf
      cases hf

/-- Witness for the amended claim C4 at a concrete one-language call with
cache behavior none. -/
theorem C4_witness :
    ((runLoadLanguage oracleOK st0 (.str "eng") optsCE4).1.all (fun e =>
      match e with
      | Event.cacheRead q =>
        (specsOf (.str "eng")).any (fun sp => pathFileName optsCE4 sp.langCode == q)
      | _ => true)) = true ∧
    (urlishLangPath optsCE4.langPath = true →
      ((runLoadLanguage oracleOK st0 (.str "eng") optsCE4).1.all
        (fun e => !(isCacheReadEvent e))) = true) :=
  C4_amended_skips_cache_lookup oracleOK st0 (.str "eng") optsCE4 rfl

/-! Lemmas for inline language specs under the default (undefined) cache
method. -/

theorem cacheStep_undefined (O : Oracle) (opts : LangOptions) (lang : String)
    (hcm : opts.cacheMethod = none) :
    cacheStep O opts lang =
      ([Event.cacheRead (cacheFilePath opts lang)],
        O.cacheReadRes (cacheFilePath opts lang)) := by
  unfold cacheStep
  rw [hcm]
  rfl

theorem cacheWriteStep_undefined (O : Oracle) (opts : LangOptions) (lang : String)
    (hcm : opts.cacheMethod = none) (d : Bytes) :
    cacheWriteStep O opts lang d =
      ([Event.cacheWrite (cacheFilePath opts lang) d],
        O.writeCacheRes (cacheFilePath opts lang) d) := by
  unfold cacheWriteStep
  rw [hcm]
  rfl

theorem resolveRaw_inline_miss (O : Oracle) (opts : LangOptions) (c : String) (bs : Bytes)
    (hcm : opts.cacheMethod = none)
    (hmiss : O.cacheReadRes (cacheFilePath opts c) = Except.ok none) :
    resolveRawBytes O opts (.inlineData c bs) =
      ([Event.cacheRead (cacheFilePath opts c)], Except.ok bs) := by
  unfold resolveRawBytes
  simp only [LangSpec.langCode]
  rw [cacheStep_undefined O opts c hcm, hmiss]
  simp [fallbackStep]

theorem loadAndGunzip_result_ok (O : Oracle) (opts : LangOptions) (tm : Bool)
    (sp : LangSpec) (tr : List Event) (raw : Bytes)
    (hr : resolveRawBytes O opts sp = (tr, Except.ok raw))
    (hcw : (cacheWriteStep O opts sp.langCode (sniffProcess O raw)).2 = Except.ok ()) :
    (loadAndGunzipFile O opts tm sp).2 = Except.ok (sniffProcess O raw) := by
  unfold loadAndGunzipFile
  rw [hr]
  rcases hcw2 : cacheWriteStep O opts sp.langCode (sniffProcess O raw) with ⟨tr3, r3⟩
  rw [hcw2] at hcw
  simp only at hcw
  subst hcw
  simp [hcw2]

theorem sniff_all_noNetFetch (raw : Bytes) :
    ((sniffEvents raw).all (fun e => !(isNetFetchEvent e))) = true := by
  unfold sniffEvents
  cases h : isGzipBytes raw <;> simp [isNetFetchEvent]

theorem fsWriteStep_all_noNetFetch (O : Oracle) (opts : LangOptions) (tm : Bool)
    (lang : String) (d : Bytes) :
    ((fsWriteStep O opts tm lang d).all (fun e => !(isNetFetchEvent e))) = true := by
  unfold fsWriteStep
  cases tm
  · simp
  · cases opts.dataPath with
    | none => simp [isNetFetchEvent]
    | some dir => cases hmk : O.mkdirRes dir <;> simp [hmk, isNetFetchEvent]

/-- Claim C5 counterexample: an inline spec under default options (cache
method undefined) still invokes the adapter cache reader (line 84) and
the adapter cache writer (line 131), so the claim as stated fails. -/
theorem C5_counterexample :
    ((loadAndGunzipFile oracleOK optsCE5 true (.inlineData "eng" [1, 2, 3])).1.any
      isCacheReadEvent) = true ∧
    ((loadAndGunzipFile oracleOK optsCE5 true (.inlineData "eng" [1, 2, 3])).1.any
      isCacheWriteEvent) = true :=
  ⟨by decide, by decide⟩

/-- Claim C5 as amended: an inline spec never triggers a network fetch;
under default options the adapter cache reader is consulted first, the
supplied bytes are used when it misses, and the resolved bytes are
persisted back through the cache writer. -/
theorem C5_amended_inline_no_network (O : Oracle) (opts : LangOptions) (tm : Bool)
    (c : String) (bs : Bytes)
    (hcm : opts.cacheMethod = none)
    (hmiss : O.cacheReadRes (cacheFilePath opts c) = Except.ok none)
    (hwc : O.writeCacheRes (cacheFilePath opts c) (sniffProcess O bs) = Except.ok ()) :
    ((loadAndGunzipFile O opts tm (.inlineData c bs)).1.all
      (fun e => !(isNetFetchEvent e))) = true ∧
    Event.cacheRead (cacheFilePath opts c) ∈
      (loadAndGunzipFile O opts tm (.inlineData c bs)).1 ∧
    Event.cacheWrite (cacheFilePath opts c) (sniffProcess O bs) ∈
      (loadAndGunzipFile O opts tm (.inlineData c bs)).1 ∧
    (loadAndGunzipFile O opts tm (.inlineData c bs)).2 =
      Except.ok (sniffProcess O bs) := by
  have htr := loadAndGunzip_trace_ok O opts tm (.inlineData c bs) _ bs
    (resolveRaw_inline_miss O opts c bs hcm hmiss)
  simp only [LangSpec.langCode] at htr
  rw [cacheWriteStep_undefined O opts c hcm (sniffProcess O bs)] at htr
  refine ⟨?_, ?_, ?_, ?_⟩
  · rw [htr]
    simp only [List.all_append, Bool.and_eq_true]
    refine ⟨⟨⟨?_, ?_⟩, ?_⟩, ?_⟩
    · rfl
    · exact sniff_all_noNetFetch bs
    · exact fsWriteStep_all_noNetFetch O opts tm c (sniffProcess O bs)
    · rfl
  · rw [htr]
    simp
  · rw [htr]
    simp
  · exact loadAndGunzip_result_ok O opts tm (.inlineData c bs) _ bs
      (resolveRaw_inline_miss O opts c bs hcm hmiss)
      (by rw [cacheWriteStep_undefined O opts _ hcm]; exact hwc)

/-- Witness for the amended claim C5 at a concrete inline spec with
default options. -/
theorem C5_witness :
    ((loadAndGunzipFile oracleOK optsCE5 true (.inlineData "eng" [1, 2, 3])).1.all
      (fun e => !(isNetFetchEvent e))) = true ∧
    Event.cacheRead (cacheFilePath optsCE5 "eng") ∈
      (loadAndGunzipFile oracleOK optsCE5 true (.inlineData "eng" [1, 2, 3])).1 ∧
    Event.cacheWrite (cacheFilePath optsCE5 "eng") (sniffProcess oracleOK [1, 2, 3]) ∈
      (loadAndGunzipFile oracleOK optsCE5 true (.inlineData "eng" [1, 2, 3])).1 ∧
    (loadAndGunzipFile oracleOK optsCE5 true (.inlineData "eng" [1, 2, 3])).2 =
      Except.ok (sniffProcess oracleOK [1, 2, 3]) :=
  C5_amended_inline_no_network oracleOK optsCE5 true "eng" [1, 2, 3] rfl rfl rfl

/-! Lemmas classifying the events of each loader step, used for the
content-sniffing claim. -/

theorem cacheStep_all_benign (O : Oracle) (opts : LangOptions) (lang : String) :
    ((cacheStep O opts lang).1.all
      (fun e => !(isFsWriteEvent e) && !(isGunzipEvent e))) = true := by
  unfold cacheStep
  split <;> simp [isFsWriteEvent, isGunzipEvent]

theorem fallback_all_benign (O : Oracle) (opts : LangOptions) (sp : LangSpec) :
    ((fallbackStep O opts sp).1.all
      (fun e => !(isFsWriteEvent e) && !(isGunzipEvent e))) = true := by
  unfold fallbackStep
  cases sp with
  | code lang =>
    cases hu : urlishLangPath opts.langPath <;>
      simp [hu, isFsWriteEvent, isGunzipEvent]
  | inlineData c bs => rfl

theorem resolveRaw_all_benign (O : Oracle) (opts : LangOptions) (sp : LangSpec) :
    ((resolveRawBytes O opts sp).1.all
      (fun e => !(isFsWriteEvent e) && !(isGunzipEvent e))) = true := by
  have hcs := cacheStep_all_benign O opts sp.langCode
  have hfb := fallback_all_benign O opts sp
  unfold resolveRawBytes
  rcases hc : cacheStep O opts sp.langCode with ⟨ctr, cr⟩
  rw [hc] at hcs
  simp only at hcs
  cases cr with
  | ok ob =>
    cases ob with
    | some bs =>
      show ((ctr ++ [Event.emit (.progress "loading language traineddata (from cache)"
        ((1 : ℚ)/2))]).all (fun e => !(isFsWriteEvent e) && !(isGunzipEvent e))) = true
      rw [List.all_append, hcs]
      rfl
    | none =>
      show ((ctr ++ (fallbackStep O opts sp).1).all
        (fun e => !(isFsWriteEvent e) && !(isGunzipEvent e))) = true
      rw [List.all_append, hcs, hfb]
      rfl
  | error e =>
    show ((ctr ++ (fallbackStep O opts sp).1).all
      (fun e => !(isFsWriteEvent e) && !(isGunzipEvent e))) = true
    rw [List.all_append, hcs, hfb]
    rfl

theorem resolveRaw_no_fsWrite (O : Oracle) (opts : LangOptions) (sp : LangSpec)
    (p : String) (d : Bytes) :
    Event.fsWriteFile p d ∉ (resolveRawBytes O opts sp).1 := by
  intro hm
  have hall := resolveRaw_all_benign O opts sp
  rw [List.all_eq_true] at hall
  have h2 := hall _ hm
  simp [isFsWriteEvent] at h2

theorem resolveRaw_no_gunzip (O : Oracle) (opts : LangOptions) (sp : LangSpec)
    (b : Bytes) :
    Event.gunzipCall b ∉ (resolveRawBytes O opts sp).1 := by
  intro hm
  have hall := resolveRaw_all_benign O opts sp
  rw [List.all_eq_true] at hall
  have h2 := hall _ hm
  simp [isGunzipEvent] at h2

theorem sniff_no_fsWrite (raw : Bytes) (p : String) (d : Bytes) :
    Event.fsWriteFile p d ∉ sniffEvents raw := by
  unfold sniffEvents
  cases h : isGzipBytes raw <;> simp

theorem sniff_mem_gunzip (raw : Bytes) (h : isGzipBytes raw = true) :
    Event.gunzipCall raw ∈ sniffEvents raw := by
  unfold sniffEvents
  rw [h]
  simp

theorem sniff_gunzip_none (raw b : Bytes) (h : isGzipBytes raw = false) :
    Event.gunzipCall b ∉ sniffEvents raw := by
  unfold sniffEvents
  rw [h]
  simp

theorem fsWriteStep_mem_write (O : Oracle) (opts : LangOptions) (lang : String)
    (d : Bytes) :
    Event.fsWriteFile (orDot opts.dataPath ++ "/" ++ lang ++ ".traineddata") d ∈
      fsWriteStep O opts true lang d := by
  unfold fsWriteStep
  cases hdp : opts.dataPath with
  | none => simp
  | some dir => cases hmk : O.mkdirRes dir <;> simp [hmk]

theorem fsWriteStep_write_unique (O : Oracle) (opts : LangOptions) (tm : Bool)
    (lang : String) (d : Bytes) (p : String) (d2 : Bytes)
    (hm : Event.fsWriteFile p d2 ∈ fsWriteStep O opts tm lang d) :
    p = orDot opts.dataPath ++ "/" ++ lang ++ ".traineddata" ∧ d2 = d := by
  unfold fsWriteStep at hm
  cases tm
  · simp at hm
  · cases hdp : opts.dataPath with
    | none =>
      rw [hdp] at hm
      simp at hm
      exact hm
    | some dir =>
      rw [hdp] at hm
      cases hmk : O.mkdirRes dir <;> simp [hmk] at hm <;> exact hm

theorem fsWriteStep_no_gunzip (O : Oracle) (opts : LangOptions) (tm : Bool)
    (lang : String) (d b : Bytes) :
    Event.gunzipCall b ∉ fsWriteStep O opts tm lang d := by
  unfold fsWriteStep
  cases tm
  · simp
  · cases hdp : opts.dataPath with
    | none => simp
    | some dir => cases hmk : O.mkdirRes dir <;> simp [hmk]

theorem cacheWriteStep_no_gunzip (O : Oracle) (opts : LangOptions) (lang : String)
    (d b : Bytes) :
    Event.gunzipCall b ∉ (cacheWriteStep O opts lang d).1 := by
  unfold cacheWriteStep
  split <;> simp

theorem cacheWriteStep_no_fsWrite (O : Oracle) (opts : LangOptions) (lang : String)
    (d : Bytes) (p : String) (d2 : Bytes) :
    Event.fsWriteFile p d2 ∉ (cacheWriteStep O opts lang d).1 := by
  unfold cacheWriteStep
  split <;> simp

/-- Claim C8: when the module handle exists and raw resolution yields a
buffer, the bytes written to the virtual filesystem are the gunzipped
buffer exactly when content sniffing identifies gzip and the unchanged
buffer otherwise; the gunzip call occurs exactly in the sniffed-gzip
case. The sniffing decision isGzipBytes depends only on the buffer. -/
theorem C8_content_sniffing (O : Oracle) (opts : LangOptions) (sp : LangSpec)
    (tr : List Event) (raw : Bytes)
    (hr : resolveRawBytes O opts sp = (tr, Except.ok raw)) :
    Event.fsWriteFile (orDot opts.dataPath ++ "/" ++ sp.langCode ++ ".traineddata")
        (sniffProcess O raw) ∈ (loadAndGunzipFile O opts true sp).1 ∧
    ((loadAndGunzipFile O opts true sp).1.all (fun e =>
      match e with
      | Event.fsWriteFile _ d => d == sniffProcess O raw
      | _ => true)) = true ∧
    (isGzipBytes raw = true →
      Event.gunzipCall raw ∈ (loadAndGunzipFile O opts true sp).1) ∧
    (isGzipBytes raw = false →
      ((loadAndGunzipFile O opts true sp).1.all (fun e => !(isGunzipEvent e))) = true) := by
  have htr := loadAndGunzip_trace_ok O opts true sp tr raw hr
  refine ⟨?_, ?_, ?_, ?_⟩
  · rw [htr]
    refine List.mem_append.mpr (Or.inl (List.mem_append.mpr (Or.inr ?_)))
    exact fsWriteStep_mem_write O opts sp.langCode (sniffProcess O raw)
  · rw [htr, List.all_eq_true]
    intro e he
    cases e <;> try rfl
    case fsWriteFile p d =>
      simp only [List.mem_append] at he
      rcases he with ((he | he) | he) | he
      · exact absurd (by rw [hr]; exact he : Event.fsWriteFile p d ∈ (resolveRawBytes O opts sp).1)
          (resolveRaw_no_fsWrite O opts sp p d)
      · exact absurd he (sniff_no_fsWrite raw p d)
      · have := (fsWriteStep_write_unique O opts true sp.langCode (sniffProcess O raw) p d he).2
        show (d == sniffProcess O raw) = true
        rw [this]
        exact beq_self_eq_true _
      · exact absurd he (cacheWriteStep_no_fsWrite O opts sp.langCode (sniffProcess O raw) p d)
  · intro hz
    rw [htr]
    refine List.mem_append.mpr (Or.inl (List.mem_append.mpr (Or.inl (List.mem_append.mpr (Or.inr ?_)))))
    exact sniff_mem_gunzip raw hz
  · intro hz
    rw [htr, List.all_eq_true]
    intro e he
    cases e <;> try rfl
    case gunzipCall b =>
      simp only [List.mem_append] at he
      rcases he with ((he | he) | he) | he
      · exact absurd (by rw [hr]; exact he : Event.gunzipCall b ∈ (resolveRawBytes O opts sp).1)
          (resolveRaw_no_gunzip O opts sp b)
      · exact absurd he (sniff_gunzip_none raw b hz)
      · exact absurd he (fsWriteStep_no_gunzip O opts true sp.langCode (sniffProcess O raw) b)
      · exact absurd he (cacheWriteStep_no_gunzip O opts sp.langCode (sniffProcess O raw) b)

/-- Witness for claim C8 at a concrete plain-language resolution whose
fetched buffer is not gzip. -/
theorem C8_witness :
    Event.fsWriteFile (orDot optsCE5.dataPath ++ "/" ++ (LangSpec.code "eng").langCode ++
        ".traineddata") (sniffProcess oracleOK [1, 2, 3]) ∈
      (loadAndGunzipFile oracleOK optsCE5 true (.code "eng")).1 ∧
    ((loadAndGunzipFile oracleOK optsCE5 true (.code "eng")).1.all (fun e =>
      match e with
      | Event.fsWriteFile _ d => d == sniffProcess oracleOK [1, 2, 3]
      | _ => true)) = true ∧
    (isGzipBytes [1, 2, 3] = true →
      Event.gunzipCall [1, 2, 3] ∈ (loadAndGunzipFile oracleOK optsCE5 true (.code "eng")).1) ∧
    (isGzipBytes [1, 2, 3] = false →
      ((loadAndGunzipFile oracleOK optsCE5 true (.code "eng")).1.all
        (fun e => !(isGunzipEvent e))) = true) :=
  C8_content_sniffing oracleOK optsCE5 (.code "eng")
    [Event.cacheRead "./eng.traineddata", Event.netFetch "http://tess/eng.traineddata.gz"]
    [1, 2, 3] (by rfl)

theorem runSpecs_trace_join (O : Oracle) (opts : LangOptions) (tm : Bool)
    (l : List LangSpec) :
    (runSpecs O opts tm l).1 =
      (l.map (fun sp => (loadAndGunzipFile O opts tm sp).1)).join := by
  induction l with
  | nil => rfl
  | cons sp rest ih => simp [runSpecs, ih]

/-- Claim C10: a string langs argument is split on the plus character and
every component is resolved as its own independent spec through the inner
loader, while the final resolve carries the original combined string
unchanged. -/
theorem C10_string_split_on_plus (O : Oracle) (st : WState) (opts : LangOptions)
    (s : String)
    (hok : (runSpecs O opts st.tessModule ((splitPlus s).map LangSpec.code)).2 =
      Except.ok ()) :
    (runLoadLanguage O st (.str s) opts).1 =
      [Event.emit (.progress "loading language traineddata" (0 : ℚ))] ++
        (((splitPlus s).map LangSpec.code).map
          (fun sp => (loadAndGunzipFile O opts st.tessModule sp).1)).join ++
        [Event.emit (.progress "loaded language traineddata" (1 : ℚ)),
         Event.emit (.resolve (.langsVal (.str s)))] := by
  have h := runLoadLanguage_trace_ok O st (.str s) opts hok
  rw [h, runSpecs_trace_join]
  rfl

/-- Witness for claim C10 at the combined string of two languages. -/
theorem C10_witness :
    (runLoadLanguage oracleOK st0 (.str "eng+fra") optsCE5).1 =
      [Event.emit (.progress "loading language traineddata" (0 : ℚ))] ++
        (((splitPlus "eng+fra").map LangSpec.code).map
          (fun sp => (loadAndGunzipFile oracleOK optsCE5 st0.tessModule sp).1)).join ++
        [Event.emit (.progress "loaded language traineddata" (1 : ℚ)),
         Event.emit (.resolve (.langsVal (.str "eng+fra")))] :=
  C10_string_split_on_plus oracleOK st0 optsCE5 "eng+fra" (by rfl)

/-! Emission-pattern infrastructure for the single-terminal claim. -/

theorem emissionsOf_append (a b : List Event) :
    emissionsOf (a ++ b) = emissionsOf a ++ emissionsOf b := by
  unfold emissionsOf
  exact List.filterMap_append a b _

theorem goodPattern_concat (ms : List Emission) (t : Emission)
    (h : (ms.all (fun m => !(m.isTerminal))) = true) (ht : t.isTerminal = true) :
    goodPattern (ms ++ [t]) = true := by
  unfold goodPattern
  rw [List.getLast?_concat, List.dropLast_concat]
  simp [ht, h]

theorem goodPattern_of_split (tr : List Event) (ms : List Emission) (t : Emission)
    (h : emissionsOf tr = ms ++ [t])
    (hms : (ms.all (fun m => !(m.isTerminal))) = true)
    (ht : t.isTerminal = true) : goodPattern (emissionsOf tr) = true := by
  rw [h]
  exact goodPattern_concat ms t hms ht

theorem emissionsOf_setVarEvents (O : Oracle) (ap : Bool) (ps : Params) :
    emissionsOf (setVarEvents O ap ps).1 = [] := by
  induction ps with
  | nil => rfl
  | cons kv rest ih =>
    obtain ⟨k, v⟩ := kv
    unfold setVarEvents
    cases h : strStarts "tessjs_" k
    · cases hap : ap
      · rfl
      · cases hr : O.setVarRes k v
        · rfl
        · rw [hap] at ih
          exact ih
    · simp only [h, if_true]
      exact ih

theorem emissionsOf_runSetParameters_noRes (O : Oracle) (st : WState) (ps : Params) :
    emissionsOf (runSetParameters O st ps false).1 = [] := by
  unfold runSetParameters
  rcases hse : setVarEvents O st.api ps with ⟨tr, r⟩
  have h := emissionsOf_setVarEvents O st.api ps
  rw [hse] at h
  simp only at h
  cases r <;> simp [h]

theorem emissionsOf_cacheStep (O : Oracle) (opts : LangOptions) (lang : String) :
    emissionsOf (cacheStep O opts lang).1 = [] := by
  unfold cacheStep
  split <;> rfl

theorem emissionsOf_fallback (O : Oracle) (opts : LangOptions) (sp : LangSpec) :
    emissionsOf (fallbackStep O opts sp).1 = [] := by
  unfold fallbackStep
  cases sp with
  | code lang => cases hu : urlishLangPath opts.langPath <;> simp [hu, emissionsOf]
  | inlineData c bs => rfl

theorem emissionsOf_sniff (raw : Bytes) :
    emissionsOf (sniffEvents raw) = [] := by
  unfold sniffEvents
  cases h : isGzipBytes raw <;> simp [emissionsOf]

theorem emissionsOf_fsWriteStep_ok (O : Oracle) (opts : LangOptions) (tm : Bool)
    (lang : String) (d : Bytes) (hmk : ∀ d2, O.mkdirRes d2 = Except.ok ()) :
    emissionsOf (fsWriteStep O opts tm lang d) = [] := by
  unfold fsWriteStep
  cases tm
  · rfl
  · cases hdp : opts.dataPath with
    | none => rfl
    | some dir => simp [hmk dir, emissionsOf]

theorem emissionsOf_cacheWriteStep (O : Oracle) (opts : LangOptions) (lang : String)
    (d : Bytes) :
    emissionsOf (cacheWriteStep O opts lang d).1 = [] := by
  unfold cacheWriteStep
  split <;> rfl

theorem resolveRaw_emissions_nonterm (O : Oracle) (opts : LangOptions) (sp : LangSpec) :
    ((emissionsOf (resolveRawBytes O opts sp).1).all (fun m => !(m.isTerminal))) = true := by
  have hfb := emissionsOf_fallback O opts sp
  unfold resolveRawBytes
  rcases hc : cacheStep O opts sp.langCode with ⟨ctr, cr⟩
  have hctr : emissionsOf ctr = [] := by
    have h := emissionsOf_cacheStep O opts sp.langCode
    rw [hc] at h
    exact h
  cases cr with
  | ok ob =>
    cases ob with
    | some bs =>
      show ((emissionsOf (ctr ++ [Event.emit (.progress
        "loading language traineddata (from cache)" ((1 : ℚ)/2))])).all
        (fun m => !(m.isTerminal))) = true
      rw [emissionsOf_append, hctr]
      rfl
    | none =>
      show ((emissionsOf (ctr ++ (fallbackStep O opts sp).1)).all
        (fun m => !(m.isTerminal))) = true
      rw [emissionsOf_append, hctr, hfb]
      rfl
  | error e =>
    show ((emissionsOf (ctr ++ (fallbackStep O opts sp).1)).all
      (fun m => !(m.isTerminal))) = true
    rw [emissionsOf_append, hctr, hfb]
    rfl

theorem loadAndGunzip_emissions_nonterm (O : Oracle) (opts : LangOptions) (tm : Bool)
    (sp : LangSpec) (hmk : ∀ d, O.mkdirRes d = Except.ok ()) :
    ((emissionsOf (loadAndGunzipFile O opts tm sp).1).all
      (fun m => !(m.isTerminal))) = true := by
  rcases hr : resolveRawBytes O opts sp with ⟨tr, r⟩
  have htr : ((emissionsOf tr).all (fun m => !(m.isTerminal))) = true := by
    have h := resolveRaw_emissions_nonterm O opts sp
    rw [hr] at h
    exact h
  cases r with
  | error e =>
    rw [loadAndGunzip_trace_error O opts tm sp tr e hr]
    exact htr
  | ok raw =>
    rw [loadAndGunzip_trace_ok O opts tm sp tr raw hr]
    rw [emissionsOf_append, emissionsOf_append, emissionsOf_append]
    rw [emissionsOf_fsWriteStep_ok O opts tm sp.langCode (sniffProcess O raw) hmk,
      emissionsOf_cacheWriteStep, emissionsOf_sniff]
    simp [List.all_append, htr]

theorem runSpecs_emissions_nonterm (O : Oracle) (opts : LangOptions) (tm : Bool)
    (l : List LangSpec) (hmk : ∀ d, O.mkdirRes d = Except.ok ()) :
    ((emissionsOf (runSpecs O opts tm l).1).all (fun m => !(m.isTerminal))) = true := by
  induction l with
  | nil => rfl
  | cons sp rest ih =>
    show ((emissionsOf ((loadAndGunzipFile O opts tm sp).1 ++
      (runSpecs O opts tm rest).1)).all (fun m => !(m.isTerminal))) = true
    rw [emissionsOf_append, List.all_append,
      loadAndGunzip_emissions_nonterm O opts tm sp hmk, ih]
    rfl

/-! Per-handler emission patterns, each wrapped in the dispatcher guard
where the handler can throw synchronously. -/

theorem pattern_runLoad (O : Oracle) (st : WState)
    (hcore : O.coreBuildRes = Except.ok ()) :
    goodPattern (emissionsOf (dispatchWrap (runLoad O st)).1) = true := by
  unfold runLoad dispatchWrap
  cases htm : st.tessModule
  · cases hgc : O.getCoreRes
    · rfl
    · rw [hcore]
      rfl
  · rfl

theorem pattern_runFS (O : Oracle) (st : WState) (m : String) :
    goodPattern (emissionsOf (dispatchWrap (runFS O st m)).1) = true := by
  unfold runFS dispatchWrap
  cases htm : st.tessModule
  · rfl
  · cases hfs : O.fsCallRes m <;> rfl

theorem pattern_runSetParameters (O : Oracle) (st : WState) (ps : Params) :
    goodPattern (emissionsOf (dispatchWrap (runSetParameters O st ps true)).1) = true := by
  unfold runSetParameters dispatchWrap
  rcases hse : setVarEvents O st.api ps with ⟨tr, r⟩
  have h := emissionsOf_setVarEvents O st.api ps
  rw [hse] at h
  simp only at h
  cases r with
  | error e =>
    show goodPattern (emissionsOf (tr ++ [Event.emit (.reject (errStr e))])) = true
    rw [emissionsOf_append, h]
    rfl
  | ok u =>
    show goodPattern (emissionsOf
      ((tr ++ [Event.emit (.resolve (.paramsVal (mergeParams st.params ps)))]))) = true
    rw [emissionsOf_append, h]
    rfl

theorem goodPattern_concat2 (ms : List Emission) (p t : Emission)
    (h : (ms.all (fun m => !(m.isTerminal))) = true) (hp : p.isTerminal = false)
    (ht : t.isTerminal = true) :
    goodPattern (ms ++ [p, t]) = true := by
  have he : ms ++ [p, t] = (ms ++ [p]) ++ [t] := by simp
  rw [he]
  refine goodPattern_concat _ _ ?_ ht
  rw [List.all_append, h]
  simp [hp]

theorem pattern_initCont (O : Oracle) (st : WState) (langs : LangsArg) (oem : Int)
    (pre : List Event)
    (hpre : ((emissionsOf pre).all (fun m => !(m.isTerminal))) = true) :
    goodPattern (emissionsOf (initCont O st langs oem pre).1) = true := by
  unfold initCont
  cases htm : st.tessModule
  · show goodPattern (emissionsOf
      (pre ++ [Event.emit (.reject (errStr tessModuleNullErr))])) = true
    rw [emissionsOf_append]
    exact goodPattern_concat _ _ hpre rfl
  · cases hinit : O.initRes with
    | error e =>
      show goodPattern (emissionsOf
        (pre ++ [Event.apiNew, Event.apiInit (langsJoin langs) oem] ++
          [Event.emit (.reject (errStr e))])) = true
      rw [emissionsOf_append, emissionsOf_append]
      exact goodPattern_concat _ (.reject (errStr e))
        (by rw [List.all_append, hpre]; rfl) rfl
    | ok u =>
      rcases hsp : runSetParameters O
        { tessModule := true, api := true, params := defaultParams }
        defaultParams false with ⟨tr2, st3, r2⟩
      have h2 := emissionsOf_runSetParameters_noRes O
        { tessModule := true, api := true, params := defaultParams } defaultParams
      rw [hsp] at h2
      simp only at h2
      cases r2 with
      | error e =>
        show goodPattern (emissionsOf
          (pre ++ [Event.apiNew, Event.apiInit (langsJoin langs) oem] ++ tr2 ++
            [Event.emit (.reject (errStr e))])) = true
        rw [emissionsOf_append, emissionsOf_append, emissionsOf_append, h2]
        exact goodPattern_concat _ (.reject (errStr e))
          (by rw [List.all_append, List.all_append, hpre]; rfl) rfl
      | ok u2 =>
        show goodPattern (emissionsOf
          (pre ++ [Event.apiNew, Event.apiInit (langsJoin langs) oem] ++ tr2 ++
            [Event.emit (.progress "initialized api" (1 : ℚ)),
             Event.emit (.resolve .unit)])) = true
        rw [emissionsOf_append, emissionsOf_append, emissionsOf_append, h2]
        exact goodPattern_concat2 _ (.progress "initialized api" (1 : ℚ)) (.resolve .unit)
          (by rw [List.all_append, List.all_append, hpre]; rfl) rfl rfl

theorem pattern_runInitialize (O : Oracle) (st : WState) (langs : LangsArg) (oem : Int) :
    goodPattern (emissionsOf (runInitialize O st langs oem).1) = true := by
  unfold runInitialize
  cases hapi : st.api
  · exact pattern_initCont O st langs oem _ rfl
  · cases hend : O.endRes with
    | error e => rfl
    | ok u => exact pattern_initCont O st langs oem _ rfl

theorem pattern_runLoadLanguage (O : Oracle) (st : WState) (langs : LangsArg)
    (opts : LangOptions) (hmk : ∀ d, O.mkdirRes d = Except.ok ())
    (hww : O.isWebWorker = false) :
    goodPattern (emissionsOf (runLoadLanguage O st langs opts).1) = true := by
  have hsp := runSpecs_emissions_nonterm O opts st.tessModule (specsOf langs) hmk
  rcases hr : (runSpecs O opts st.tessModule (specsOf langs)).2 with e | u
  · rw [runLoadLanguage_trace_error O st langs opts e hr, hww]
    rw [Bool.false_and]
    rw [if_neg (by simp)]
    rw [emissionsOf_append, emissionsOf_append]
    exact goodPattern_concat _ (.reject (errStr e))
      (by rw [List.all_append, hsp]; rfl) rfl
  · rw [runLoadLanguage_trace_ok O st langs opts hr]
    rw [emissionsOf_append, emissionsOf_append]
    exact goodPattern_concat2 _ (.progress "loaded language traineddata" (1 : ℚ))
      (.resolve (.langsVal langs))
      (by rw [List.all_append, hsp]; rfl) rfl rfl

theorem pattern_runRecognize (O : Oracle) (st : WState) :
    goodPattern (emissionsOf (runRecognize O st).1) = true := by
  unfold runRecognize
  cases h : O.recognizeRes <;> rfl

theorem pattern_runThreshold (O : Oracle) (st : WState) :
    goodPattern (emissionsOf (runThreshold O st).1) = true := by
  unfold runThreshold
  cases h : O.thresholdRes <;> rfl

theorem pattern_runGetPDF (O : Oracle) (st : WState) :
    goodPattern (emissionsOf (dispatchWrap (runGetPDF O st)).1) = true := by
  unfold runGetPDF dispatchWrap
  cases h : O.pdfRes <;> rfl

theorem pattern_runDetect (O : Oracle) (st : WState) :
    goodPattern (emissionsOf (runDetect O st).1) = true := by
  unfold runDetect
  cases hsi : O.setImageRes
  · rfl
  · cases hapi : st.api
    · rfl
    · cases hdet : O.detectOSRes
      · cases hend : O.endRes <;> rfl
      · rfl

theorem pattern_runTerminate (O : Oracle) (st : WState) :
    goodPattern (emissionsOf (runTerminate O st).1) = true := by
  unfold runTerminate
  cases hapi : st.api
  · rfl
  · cases hend : O.endRes <;> rfl

set_option maxHeartbeats 1000000 in
/-- Claim C1 counterexample: a loadLanguage packet over a state with the
module loaded, whose virtual-filesystem directory creation fails, emits a
reject (line 124) and then still emits the final progress and resolve
(lines 140 and 141), so a single dispatched packet produces a reject
followed by a resolve and the claim as stated fails. -/
theorem C1_counterexample :
    goodPattern (emissionsOf (dispatchHandlers oracleCE1 st0 pktCE1).1) = false := by
  decide

set_option maxHeartbeats 1600000 in
/-- Claim C1 as amended: for every dispatched packet whose action is not
an inherited Object.prototype function name and whose payload matches a
supported action name it carries, provided the core module factory
promise does not reject, directory creation in the virtual filesystem
does not fail during loadLanguage, and the web-worker DOMException
swallowing case does not apply, the worker emits zero or more progress
emissions followed by exactly one terminal resolve or reject. -/
theorem C1_amended_single_terminal (O : Oracle) (st : WState) (p : Packet)
    (hmk : ∀ d, O.mkdirRes d = Except.ok ())
    (hww : O.isWebWorker = false)
    (hcore : O.coreBuildRes = Except.ok ())
    (hproto : p.action ∉ protoFunctionNames)
    (hwf : p.action ∈ actionNames → payloadMatches p.action p.payload = true) :
    goodPattern (emissionsOf (dispatchHandlers O st p).1) = true := by
  unfold dispatchHandlers
  by_cases hmem : p.action ∈ actionNames
  · rw [if_pos hmem]
    have hpm := hwf hmem
    obtain ⟨wid, jid, act, pl⟩ := p
    simp only [actionNames, List.mem_cons, List.not_mem_nil, or_false] at hmem
    rcases hmem with h | h | h | h | h | h | h | h | h | h <;> subst h
    · cases pl <;> first | exact pattern_runLoad O st hcore | rfl
    · cases pl <;> first | exact pattern_runFS O st _ | rfl
    · cases pl <;> first
        | exact pattern_runLoadLanguage O st _ _ hmk hww
        | exact Bool.noConfusion hpm
    · cases pl <;> first | exact pattern_runInitialize O st _ _ | rfl
    · cases pl <;> first | exact pattern_runSetParameters O st _ | rfl
    · cases pl <;> first | exact pattern_runRecognize O st | rfl
    · cases pl <;> first | exact pattern_runThreshold O st | rfl
    · cases pl <;> first | exact pattern_runGetPDF O st | rfl
    · cases pl <;> first | exact pattern_runDetect O st | rfl
    · cases pl <;> first | exact pattern_runTerminate O st | rfl
  · rw [if_neg hmem, if_neg hproto]
    rfl

/-- Witness for the amended claim C1 at a concrete terminate packet under
an oracle whose external calls succeed, outside a web worker. -/
theorem C1_witness :
    goodPattern (emissionsOf (dispatchHandlers oracleOK st0 pktTerminate).1) = true :=
  C1_amended_single_terminal oracleOK st0 pktTerminate (fun _ => rfl) rfl rfl
    (by decide) (fun _ => rfl)

end TessWorker
